import Mathlib

/-!
Verification of the dzx server framework against its design specification.

This file gives a shallow embedding, in Lean, of the parts of the dzx
code base that the specification's claims talk about:

* the JavaScript string helpers used throughout (`split`, `join`, `trim`,
  modelled over `List Char`),
* the frontmatter parser (`src/core/frontmatter.ts`),
* tool-name derivation and schema resolution from discovery
  (`src/cli/commands.ts`),
* the depth-aware type-expression splitter (`src/cli/commands.ts`),
* the JSON-RPC dispatcher (`handleSingle`, `handleRequest`,
  `handleStream` from the runtime module) with its tools/call pipeline,
* `withTimeout` from the runtime module.

External collaborators (Ajv compilation, `JSON.stringify`, the file
system, dynamic `import`) are modelled as oracles supplied through an
environment record; everything the claims inspect is computed by the
embedded code itself.  Machine numbers are modelled as `Int` (the code
only compares and renders them).  All definitions are executable.
-/

namespace Dzx

/-! ## JavaScript string primitives over `List Char` -/

/-- ASCII whitespace recognized by JavaScript's `String.prototype.trim`
(the non-ASCII whitespace code points never occur in the inputs the
claims are about). -/
def isJsSpace (c : Char) : Bool :=
  c = ' ' || c = '\t' || c = '\n' || c = '\r' || c = '\x0b' || c = '\x0c'

/-- `String.prototype.trim`: drop whitespace from both ends. -/
def trimCL (l : List Char) : List Char :=
  ((l.dropWhile isJsSpace).reverse.dropWhile isJsSpace).reverse

/-- `startsWith`: test whether `p` is an initial segment of `l`. -/
def startsWithCL : List Char → List Char → Bool
  | [], _ => true
  | _ :: _, [] => false
  | p :: ps, c :: cs => p = c && startsWithCL ps cs

/-- `String.prototype.split` with a single-character separator.
Mirrors JavaScript: `"".split(sep)` is `[""]`, separators at the ends
produce empty segments. -/
def splitOnChar (sep : Char) : List Char → List (List Char)
  | [] => [[]]
  | c :: rest =>
    let r := splitOnChar sep rest
    if c = sep then [] :: r
    else (c :: r.headD []) :: r.tail

/-- `Array.prototype.join` with a single-character separator. -/
def joinSep (sep : Char) : List (List Char) → List Char
  | [] => []
  | [l] => l
  | l :: ls => l ++ sep :: joinSep sep ls

/-- `content.split(/\r?\n/)`: line splitting where each line break is a
bare `"\n"` or a `"\r\n"` pair; a carriage return not followed by a
newline stays inside its line. -/
def splitLinesCRLF : List Char → List (List Char)
  | [] => [[]]
  | '\n' :: rest => [] :: splitLinesCRLF rest
  | '\r' :: '\n' :: rest => [] :: splitLinesCRLF rest
  | c :: rest =>
    let r := splitLinesCRLF rest
    (c :: r.headD []) :: r.tail

/-! ## Frontmatter parser (`src/core/frontmatter.ts`) -/

/-- The scan of `parseFrontmatter` for the closing delimiter: the first
line index `i ≥ 1` whose trimmed text is `---`.  `i` counts from the
start of the whole line list; the head line (the opening delimiter) is
skipped by the caller. -/
def findCloseFrom : Nat → List (List Char) → Option Nat
  | _, [] => none
  | i, l :: ls =>
    if trimCL l = ['-', '-', '-'] then some i else findCloseFrom (i + 1) ls

/-- First index `i ≥ 1` with `lines[i].trim() === "---"`, as in the
loop of `parseFrontmatter` (frontmatter.ts lines 22–27). -/
def findClose (lines : List (List Char)) : Option Nat :=
  match lines with
  | [] => none
  | _ :: rest => findCloseFrom 1 rest

/-- The `body` component of `parseFrontmatter` (frontmatter.ts lines
15–34).  The metadata loop of lines 35–75 never touches `body`, so it
is not needed for the body claims and is omitted.  Mirrors the source:
no leading `---` or no closing delimiter returns the whole document;
otherwise the lines after the closing delimiter are rejoined with
`"\n"`. -/
def parseFrontmatterBody (content : List Char) : List Char :=
  if startsWithCL ['-', '-', '-'] content = false then content
  else
    let lines := splitLinesCRLF content
    match findClose lines with
    | none => content
    | some e => joinSep '\n' (lines.drop (e + 1))

/-- The frontmatter block that `parseFrontmatter` strips: the lines up
to and including the closing delimiter, plus the line terminator that
follows the closing delimiter when the document continues.  Defined so
that the body round-trip property can be stated. -/
def fmBlock (content : List Char) : List Char :=
  let lines := splitLinesCRLF content
  match findClose lines with
  | none => []
  | some e =>
    joinSep '\n' (lines.take (e + 1)) ++
      (if e + 1 < lines.length then ['\n'] else [])

/-! ## Tool-name derivation (`src/cli/commands.ts` lines 1504–1507 and
1556–1560) -/

/-- `relativeFile.replace(/\.[^.]+$/, "")`: remove a final `.ext`
segment when a dot exists and the text after the last dot is nonempty.
`[^.]+` matches any characters other than `.`, so the removed tail is
exactly the text after the last dot. -/
def jsDropLastExt (l : List Char) : List Char :=
  let parts := splitOnChar '.' l
  if 2 ≤ parts.length ∧ parts.getLastD [] ≠ [] then
    joinSep '.' parts.dropLast
  else l

/-- `toolNameFromPath` (commands.ts lines 1504–1507): drop the
extension, then `split(path.sep).join("-")` followed by
`split("/").join("-")`.  `path.sep` is modelled as `/` (POSIX). -/
def toolNameFromPath (relativeFile : List Char) : List Char :=
  let withoutExt := jsDropLastExt relativeFile
  let step1 := joinSep '-' (splitOnChar '/' withoutExt)
  joinSep '-' (splitOnChar '/' step1)

/-- `path.join(a, b)` for a relative `b`: concatenation with one
separator. -/
def pathJoin (a b : List Char) : List Char := a ++ '/' :: b

/-- `path.relative(base, p)` for the case the code exercises: `p` lies
strictly under `base`, so the relative path is `p` with the
`base + "/"` prefix removed. -/
def pathRelative (base p : List Char) : List Char :=
  if startsWithCL (base ++ ['/']) p then p.drop (base.length + 1) else p

/-- The name `discoverTools` assigns to a tool file (commands.ts lines
1556–1560): `toolNameFromPath(path.relative(toolsPath, file))` where
`toolsPath = path.resolve(cwd, toolsDir)` and
`file = path.join(toolsPath, rel)` for the walk-relative path `rel`. -/
def discoveredToolName (cwd toolsDir rel : List Char) : List Char :=
  let toolsPath := pathJoin cwd toolsDir
  let file := pathJoin toolsPath rel
  toolNameFromPath (pathRelative toolsPath file)

/-- The file's repo-relative path, `path.relative(cwd, file)`, for the
same layout. -/
def repoRelativePath (cwd toolsDir rel : List Char) : List Char :=
  pathRelative cwd (pathJoin (pathJoin cwd toolsDir) rel)

/-! ## Depth-aware splitter of the type-expression parser
(`src/cli/commands.ts` lines 1071–1087) -/

/-- Loop body of `splitByTopLevel`: walk the characters keeping a
bracket depth; both depth updates happen before the delimiter test,
exactly as in the source (`depth` may go negative, hence `Int`).  A
part is pushed only when its trimmed text is nonempty. -/
def splitByTopLevelGo (delim : Char) :
    List Char → Int → List Char → List (List Char) → List (List Char)
  | [], _, current, parts =>
    if trimCL current = [] then parts else parts ++ [trimCL current]
  | c :: rest, depth, current, parts =>
    let d1 := if c = '{' ∨ c = '[' ∨ c = '<' ∨ c = '(' then depth + 1 else depth
    let d2 := if c = '}' ∨ c = ']' ∨ c = '>' ∨ c = ')' then d1 - 1 else d1
    if c = delim ∧ d2 = 0 then
      splitByTopLevelGo delim rest d2 []
        (if trimCL current = [] then parts else parts ++ [trimCL current])
    else
      splitByTopLevelGo delim rest d2 (current ++ [c]) parts

/-- `splitByTopLevel` (commands.ts lines 1071–1087). -/
def splitByTopLevel (input : List Char) (delim : Char) : List (List Char) :=
  splitByTopLevelGo delim input 0 [] []

/-- Whether the delimiter occurs at bracket depth 0 somewhere in the
input, scanning with the same depth bookkeeping as
`splitByTopLevel`. -/
def hasTopLevelDelim (delim : Char) : List Char → Int → Bool
  | [], _ => false
  | c :: rest, depth =>
    let d1 := if c = '{' ∨ c = '[' ∨ c = '<' ∨ c = '(' then depth + 1 else depth
    let d2 := if c = '}' ∨ c = ']' ∨ c = '>' ∨ c = ')' then d1 - 1 else d1
    if c = delim ∧ d2 = 0 then true else hasTopLevelDelim delim rest d2

/-! ## JavaScript value model

JSON-ish runtime values as the dispatcher and discovery see them.
Numbers are `Int` (the embedded code only stores, compares and renders
them; no claim involves fractional values or NaN payloads).  `func`
stands for any function value and records whether it was declared
`async`. -/

inductive JsVal where
  | undefined : JsVal
  | null : JsVal
  | bool (b : Bool) : JsVal
  | num (n : Int) : JsVal
  | str (s : String) : JsVal
  | obj (fields : List (String × JsVal)) : JsVal
  | arr (elems : List JsVal) : JsVal
  | func (isAsync : Bool) : JsVal

/-- JavaScript truthiness (NaN, not modelled, is the one other falsy
number). -/
def JsVal.truthy : JsVal → Bool
  | .undefined => false
  | .null => false
  | .bool b => b
  | .num n => n ≠ 0
  | .str s => s ≠ ""
  | .obj _ => true
  | .arr _ => true
  | .func _ => true

/-- `typeof v === "object"` (true for objects, arrays and `null`). -/
def JsVal.typeofObject : JsVal → Bool
  | .null => true
  | .obj _ => true
  | .arr _ => true
  | _ => false

/-- Plain object or array: truthy values of `typeof "object"`. -/
def JsVal.isObjLike : JsVal → Bool
  | .obj _ => true
  | .arr _ => true
  | _ => false

/-- Property read `v[k]`, yielding `undefined` when the key is missing
or the value is not an object (the embedded code only reads properties
of objects). -/
def JsVal.get (v : JsVal) (k : String) : JsVal :=
  match v with
  | .obj fields => (fields.lookup k).getD .undefined
  | _ => .undefined

/-- `k in v` for an object value: membership of the key, regardless of
the stored value. -/
def JsVal.hasKey (v : JsVal) (k : String) : Bool :=
  match v with
  | .obj fields => fields.any (fun p => p.1 == k)
  | _ => false

/-- `v === undefined`. -/
def JsVal.isUndefined : JsVal → Bool
  | .undefined => true
  | _ => false

/-- `v === null`. -/
def JsVal.isNull : JsVal → Bool
  | .null => true
  | _ => false

/-- `a ?? b`: `b` exactly when `a` is `null` or `undefined`. -/
def jsNullish (a b : JsVal) : JsVal :=
  match a with
  | .undefined => b
  | .null => b
  | _ => a

/-- `asRecord` (runtime module lines 443–446): a value of
`typeof "object"` other than `null`, else `null` (modelled as
`none`). -/
def asRecord (v : JsVal) : Option JsVal :=
  match v with
  | .obj _ => some v
  | .arr _ => some v
  | _ => none

/-! ## JSON-RPC wire model (runtime module lines 33–45) -/

/-- A present JSON-RPC id: `number | string | null`. -/
inductive RpcId where
  | null : RpcId
  | num (n : Int) : RpcId
  | str (s : String) : RpcId
deriving DecidableEq

/-- An inbound message after `JSON.parse`: every field optional, as in
the `JSONRPCRequest` type.  `id = none` models an absent field,
`id = some .null` a JSON `null`. -/
structure RpcRequest where
  jsonrpc : Option String
  id : Option RpcId
  method : Option String
  params : JsVal

/-- `request.id === undefined || request.id === null` (line 1615). -/
def RpcRequest.isNotification (req : RpcRequest) : Bool :=
  req.id = none || req.id = some RpcId.null

/-- `request.id ?? null`: the id used in responses. -/
def RpcRequest.respId (req : RpcRequest) : RpcId :=
  (req.id).getD RpcId.null

/-- The shaped result of a `tools/call` (content text, error flag,
optional structured content). -/
structure ToolCallResult where
  text : String
  isError : Bool
  structured : Option JsVal

/-- Result payloads of the dispatcher's method branches.  Branches no
claim inspects carry only the data a claim could mention; the full
payloads (capability sets, listings) are independent of the claims
under verification. -/
inductive RpcResult where
  | initializeR (protocolVersion : String) : RpcResult
  | emptyObj : RpcResult
  | toolsListR : RpcResult
  | resourcesListR : RpcResult
  | resourceReadR (text : String) : RpcResult
  | promptsListR : RpcResult
  | promptGetR (body : String) : RpcResult
  | toolR (r : ToolCallResult) : RpcResult

/-- A JSON-RPC response: success envelope or error envelope.  `data`
carries the `{method, normalized}` pair of the method-not-found
branch. -/
inductive RpcResponse where
  | ok (id : RpcId) (result : RpcResult) : RpcResponse
  | err (id : RpcId) (code : Int) (message : String)
      (data : Option (String × String)) : RpcResponse

/-- `invalidRequest` (runtime module lines 583–585). -/
def invalidRequest (id : RpcId) (message : String) (code : Int) : RpcResponse :=
  .err id code message none

/-- `normalizeMethod` (runtime module lines 641–648): a dotted method
with no slash has its dots replaced by slashes; empty or absent
methods pass through. -/
def normalizeMethod (method : Option String) : Option String :=
  match method with
  | none => none
  | some m =>
    if m.data = [] then some m
    else if '.' ∈ m.data ∧ ¬ ('/' ∈ m.data) then
      some (String.mk (joinSep '/' (splitOnChar '.' m.data)))
    else some m

/-! ## Dispatcher state and oracles -/

/-- A discovered tool as the dispatcher sees it (`DiscoveredTool`,
commands.ts lines 971–980).  Schemas are opaque handles resolved by
the validation oracle; `none` models an absent (`undefined`) schema,
matching the `if (tool.inputSchema)` truthiness tests (schema values
are objects, hence truthy). -/
structure MTool where
  name : String
  file : String
  location : Option (Nat × Nat)
  inputSchema : Option Nat
  outputSchema : Option Nat
  inputSchemaSource : Option String
  outputSchemaSource : Option String

/-- A discovered resource (name, file, optional media type). -/
structure MResource where
  name : String
  file : String
  mediaType : Option String

/-- A discovered prompt (name and file). -/
structure MPrompt where
  name : String
  file : String

/-- `validateSchema`'s result shape `{ok, error?}` (runtime module
line 695). -/
structure ValResult where
  ok : Bool
  error : Option String
deriving DecidableEq

/-- The `default` export of a dynamically imported tool module: not a
function, a synchronous function, or an async function. -/
inductive LoadedDefault where
  | notFn : LoadedDefault
  | syncFn : LoadedDefault
  | asyncFn : LoadedDefault
deriving DecidableEq

/-- Outcome of `loadToolModule`: the import threw, or produced a
module with the given default export. -/
inductive LoadResult where
  | thrown (msg : String) : LoadResult
  | loaded (d : LoadedDefault) : LoadResult
deriving DecidableEq

/-- Outcome of `withTimeout(Promise.resolve(fn(args, context)), …)`:
the handler's promise resolves with a value, or the await rejects
(handler threw, rejected, or the timeout fired). -/
inductive RunOutcome where
  | resolves (v : JsVal) : RunOutcome
  | rejects (msg : String) : RunOutcome

/-- Effects the dispatcher observes while handling a `tools/call`.
`moduleLoaded` marks the `loadToolModule` call, `handlerInvoked` the
invocation of the default export. -/
inductive CallEvent where
  | moduleLoaded : CallEvent
  | handlerInvoked : CallEvent
deriving DecidableEq

/-- What `handleSingle` produces: the optional response, the
notification flag, and the tool-call effects that occurred. -/
structure HandleOutcome where
  response : Option RpcResponse
  notification : Bool
  events : List CallEvent

/-- The dispatcher's surroundings: the current descriptor tables and
oracles for the external collaborators — `validateSchema` outcomes
per schema handle, dynamic import, handler execution under the
timeout, `JSON.stringify`, and `fs.readFileSync`. -/
structure DispatchEnv where
  tools : List MTool
  resources : List MResource
  prompts : List MPrompt
  manifestProtocolVersion : Option String
  validate : Nat → JsVal → ValResult
  load : String → LoadResult
  run : String → JsVal → RunOutcome
  stringify : JsVal → String
  readFile : String → String

/-- `DEFAULT_PROTOCOL_VERSION` (runtime module line 23). -/
def DEFAULT_PROTOCOL_VERSION : String := "2025-06-18"

/-- `formatToolLocation` (runtime module lines 631–636). -/
def formatToolLocation (t : MTool) : String :=
  match t.location with
  | some lc => t.file ++ ":" ++ toString lc.1 ++ ":" ++ toString lc.2
  | none => t.file

/-- The `callArgs` computation of the `tools/call` branch (lines
1672–1673): the `arguments` member when the key is present, with
nullish values replaced by `{}`. -/
def callArgsOf (params : JsVal) : JsVal :=
  let args := if params.hasKey "arguments" then params.get "arguments" else .undefined
  jsNullish args (.obj [])

/-- The input-schema gate of the `tools/call` branch (lines
1691–1693): validation runs only when the tool carries an input
schema. -/
def inputOk (env : DispatchEnv) (tool : MTool) (args : JsVal) : Bool :=
  match tool.inputSchema with
  | some sid => (env.validate sid args).ok
  | none => true

/-- `resourceUri` (runtime module lines 624–626). -/
def resourceUri (name : String) : String := "resource://" ++ name

/-- The `tools/call` branch of `handleSingle` (runtime module lines
1667–1831).  The `if (!toolName)` guard of line 1674 is falsy for an
absent or non-string `name` **and for the empty string**, so all
three answer `invalid params` before the tool lookup.  Metrics
recording and logging are effect-free for the response and are
elided.  The returned events record whether `loadToolModule` ran and
whether the default export was invoked. -/
def handleToolsCall (env : DispatchEnv) (req : RpcRequest)
    (notification : Bool) : HandleOutcome :=
  let params := (asRecord req.params).getD (.obj [])
  let callArgs := callArgsOf params
  match params.get "name" with
  | .str toolName =>
    if toolName = "" then
      { response := some (invalidRequest req.respId "invalid params" (-32602)),
        notification := notification, events := [] }
    else
    match env.tools.find? (fun t => t.name == toolName) with
    | none =>
      { response := some (invalidRequest req.respId "unknown tool" (-32602)),
        notification := notification, events := [] }
    | some tool =>
      if inputOk env tool callArgs = false then
        { response :=
            some (invalidRequest req.respId "input validation failed" (-32602)),
          notification := notification, events := [] }
      else
        match env.load tool.file with
        | .thrown msg =>
          let m := if msg = "" then "tool error" else msg
          { response := some (.ok req.respId (.toolR
              { text := m, isError := true, structured := none })),
            notification := notification, events := [.moduleLoaded] }
        | .loaded .notFn =>
          { response :=
              some (invalidRequest req.respId "tool handler not found" (-32601)),
            notification := notification, events := [.moduleLoaded] }
        | .loaded .syncFn =>
          { response :=
              some (invalidRequest req.respId "tool handler must be async" (-32601)),
            notification := notification, events := [.moduleLoaded] }
        | .loaded .asyncFn =>
          match env.run tool.file callArgs with
          | .rejects msg =>
            let m := if msg = "" then "tool error" else msg
            { response := some (.ok req.respId (.toolR
                { text := m, isError := true, structured := none })),
              notification := notification,
              events := [.moduleLoaded, .handlerInvoked] }
          | .resolves output =>
            let text := match output with
              | .str s => s
              | v => env.stringify (jsNullish v (.obj []))
            let requiresStructured := match tool.outputSchemaSource with
              | some s => s != "default"
              | none => false
            if requiresStructured && output.isUndefined then
              let errorText := "structured output required for " ++ toolName ++
                " (" ++ formatToolLocation tool ++ ")"
              { response := some (.ok req.respId (.toolR
                  { text := errorText, isError := true, structured := none })),
                notification := notification,
                events := [.moduleLoaded, .handlerInvoked] }
            else
              let outFail : Option String := match tool.outputSchema with
                | some sid =>
                  let r := env.validate sid output
                  if r.ok then none
                  else some ((r.error.getD "output validation failed") ++
                    " (" ++ formatToolLocation tool ++ ")")
                | none => none
              match outFail with
              | some errorText =>
                { response := some (.ok req.respId (.toolR
                    { text := errorText, isError := true, structured := none })),
                  notification := notification,
                  events := [.moduleLoaded, .handlerInvoked] }
              | none =>
                let structured : Option JsVal :=
                  if requiresStructured then some output
                  else if !output.isNull && output.typeofObject then
                    some output
                  else none
                { response := some (.ok req.respId (.toolR
                    { text := text, isError := false, structured := structured })),
                  notification := notification,
                  events := [.moduleLoaded, .handlerInvoked] }
  | _ =>
    { response := some (invalidRequest req.respId "invalid params" (-32602)),
      notification := notification, events := [] }

/-- `handleSingle` (runtime module lines 1598–1950): envelope check,
method normalization, notification detection, and the method switch.
Branches whose payloads no claim inspects return their result tags;
their response-presence and error codes follow the source exactly. -/
def handleSingle (env : DispatchEnv) (req : RpcRequest) : HandleOutcome :=
  if req.jsonrpc ≠ some "2.0" then
    { response := some (invalidRequest req.respId "invalid request" (-32600)),
      notification := false, events := [] }
  else
    let method := normalizeMethod req.method
    let notification := req.isNotification
    match method with
    | some "initialize" =>
      let params := asRecord req.params
      let requested : Option String := match params with
        | some p => match p.get "protocolVersion" with
          | .str s => some s
          | _ => none
        | none => none
      let version := match requested with
        | some s =>
          if s ≠ "" then s
          else env.manifestProtocolVersion.getD DEFAULT_PROTOCOL_VERSION
        | none => env.manifestProtocolVersion.getD DEFAULT_PROTOCOL_VERSION
      { response := some (.ok req.respId (.initializeR version)),
        notification := notification, events := [] }
    | some "notifications/initialized" =>
      { response := none, notification := true, events := [] }
    | some "ping" =>
      { response := some (.ok req.respId .emptyObj),
        notification := notification, events := [] }
    | some "tools/list" =>
      { response := some (.ok req.respId .toolsListR),
        notification := notification, events := [] }
    | some "tools/call" => handleToolsCall env req notification
    | some "resources/list" =>
      { response := some (.ok req.respId .resourcesListR),
        notification := notification, events := [] }
    | some "resources/read" =>
      let params := (asRecord req.params).getD (.obj [])
      match params.get "uri" with
      | .str uri =>
        if uri = "" then
          { response :=
              some (invalidRequest req.respId "invalid params" (-32602)),
            notification := notification, events := [] }
        else
        match env.resources.find?
            (fun item => resourceUri item.name == uri || item.file == uri) with
        | none =>
          { response :=
              some (invalidRequest req.respId "resource not found" (-32601)),
            notification := notification, events := [] }
        | some resource =>
          { response := some (.ok req.respId
              (.resourceReadR (env.readFile resource.file))),
            notification := notification, events := [] }
      | _ =>
        { response := some (invalidRequest req.respId "invalid params" (-32602)),
          notification := notification, events := [] }
    | some "resources/subscribe" =>
      { response := some (.ok req.respId .emptyObj),
        notification := notification, events := [] }
    | some "resources/unsubscribe" =>
      { response := some (.ok req.respId .emptyObj),
        notification := notification, events := [] }
    | some "prompts/list" =>
      { response := some (.ok req.respId .promptsListR),
        notification := notification, events := [] }
    | some "prompts/get" =>
      let params := (asRecord req.params).getD (.obj [])
      match params.get "name" with
      | .str name =>
        if name = "" then
          { response :=
              some (invalidRequest req.respId "invalid params" (-32602)),
            notification := notification, events := [] }
        else
        match env.prompts.find? (fun item => item.name == name) with
        | none =>
          { response :=
              some (invalidRequest req.respId "prompt not found" (-32601)),
            notification := notification, events := [] }
        | some prompt =>
          let content := env.readFile prompt.file
          let body :=
            String.mk (trimCL (parseFrontmatterBody content.data))
          { response := some (.ok req.respId (.promptGetR body)),
            notification := notification, events := [] }
      | _ =>
        { response := some (invalidRequest req.respId "invalid params" (-32602)),
          notification := notification, events := [] }
    | some "logging/setLevel" =>
      { response := some (.ok req.respId .emptyObj),
        notification := notification, events := [] }
    | some "notifications/cancelled" =>
      { response := none, notification := true, events := [] }
    | some "notifications/canceled" =>
      { response := none, notification := true, events := [] }
    | some other =>
      let rawMethod := req.method.getD "unknown"
      { response := some (.err req.respId (-32601) "method not found"
          (some (rawMethod, other))),
        notification := notification, events := [] }
    | none =>
      let rawMethod := req.method.getD "unknown"
      { response := some (.err req.respId (-32601) "method not found"
          (some (rawMethod, rawMethod))),
        notification := notification, events := [] }

/-- The non-batch path of `handleRequest` (runtime module lines
1553–1562), after `JSON.parse`: a notification yields `null`
(`none`), otherwise the response. -/
def handleRequestSingleParsed (env : DispatchEnv) (req : RpcRequest) :
    Option RpcResponse :=
  let o := handleSingle env req
  if o.notification then none else o.response

/-- The batch path of `handleRequest` (runtime module lines
1535–1550), after `JSON.parse`: responses are collected only for
entries that are not notifications, in order; an empty collection
yields `null` (`none`). -/
def handleBatchParsed (env : DispatchEnv) (reqs : List RpcRequest) :
    Option (List RpcResponse) :=
  let responses := reqs.foldl (fun acc item =>
    let o := handleSingle env item
    match o.response with
    | some r => if o.notification then acc else acc ++ [r]
    | none => acc) []
  if responses.isEmpty then none else some responses

/-- The SSE path `handleStream` (runtime module lines 1568–1593),
after the body has been split and each segment parsed: one
`event: message` frame is written for every message whose
`handleSingle` outcome carries a response — the `notification` flag is
not consulted (line 1588 destructures only `response`). -/
def handleStreamParsed (env : DispatchEnv) (reqs : List RpcRequest) :
    List RpcResponse :=
  reqs.foldl (fun acc item =>
    let o := handleSingle env item
    match o.response with
    | some r => acc ++ [r]
    | none => acc) []

/-! ## Schema resolution at discovery time (`src/cli/commands.ts`
lines 1578–1648) -/

/-- Alphanumeric ASCII, the `[a-zA-Z0-9]` class of the camel-case
regex. -/
def isAlnumAscii (c : Char) : Bool :=
  ('a' ≤ c && c ≤ 'z') || ('A' ≤ c && c ≤ 'Z') || ('0' ≤ c && c ≤ '9')

/-- `name.replace(/[-_]+([a-zA-Z0-9])/g, upper)` (commands.ts lines
1579–1581): a run of dashes/underscores followed by an alphanumeric is
replaced by that character upper-cased; a run not followed by an
alphanumeric is kept.  `pending` holds the current run, reversed. -/
def camelizeGo : List Char → List Char → List Char
  | pending, [] => pending.reverse
  | pending, c :: rest =>
    if c = '-' ∨ c = '_' then camelizeGo (c :: pending) rest
    else if pending ≠ [] ∧ isAlnumAscii c then c.toUpper :: camelizeGo [] rest
    else pending.reverse ++ c :: camelizeGo [] rest

/-- The camel-cased tool name used for the `<camelName>Schema` export
lookup. -/
def camelize (s : String) : String := String.mk (camelizeGo [] s.data)

/-- `mod.schema ?? mod.toolSchema ?? mod.defaultSchema ??
mod[camelName + "Schema"]` (commands.ts lines 1582–1583).  A module's
exports are modelled as a total map from export name to value, absent
exports reading `undefined`. -/
def chosenSchemaExport (mod : String → JsVal) (name : String) : JsVal :=
  jsNullish (mod "schema")
    (jsNullish (mod "toolSchema")
      (jsNullish (mod "defaultSchema") (mod (camelize name ++ "Schema"))))

/-- Results of one inference pass (`inferSchemaFromDocBlock` or
`inferSchemaFromSignature`): the inferred input/output schemas, as the
values the code would test for truthiness (`undefined` when the pass
produced none).  The tag counters only feed warnings and are
elided. -/
structure Inference where
  inputSchema : JsVal
  outputSchema : JsVal

/-- The first discovered-tool position in the claims' sense: resolved
input/output schema values and their sources.  After resolution both
sources are always set. -/
structure ResolvedSchemas where
  inputSchema : JsVal
  outputSchema : JsVal
  inputSchemaSource : String
  outputSchemaSource : String

/-- `{ type: "object", properties: {}, additionalProperties: true }`
(commands.ts line 1531). -/
def defaultInputSchema : JsVal :=
  .obj [("type", .str "object"), ("properties", .obj []),
    ("additionalProperties", .bool true)]

/-- `{}` (commands.ts line 1532). -/
def defaultOutputSchema : JsVal := .obj []

/-- One side (input or output) of the resolution state: the current
schema value (`undefined` when still unset, as in the source's
`let inputSchema` / `let outputSchema`) and the recorded source tag
(`none` when still unset). -/
structure SideState where
  schema : JsVal
  source : Option String

/-- The explicit-export step (commands.ts lines 1590–1598): when the
chosen export is a truthy object and one of its `input`/`output`
members is truthy, both members are taken over (even a falsy one) and
each side's source is set to `"schema"` exactly when its member is
truthy. -/
def explicitStep (schemaExport : JsVal) : SideState × SideState :=
  if schemaExport.truthy && schemaExport.typeofObject then
    let i := schemaExport.get "input"
    let o := schemaExport.get "output"
    if i.truthy || o.truthy then
      ({ schema := i, source := if i.truthy then some "schema" else none },
        { schema := o, source := if o.truthy then some "schema" else none })
    else
      ({ schema := JsVal.undefined, source := none },
        { schema := JsVal.undefined, source := none })
  else
    ({ schema := JsVal.undefined, source := none },
      { schema := JsVal.undefined, source := none })

/-- The JSDoc-inference step (commands.ts lines 1600–1621): runs only
when a doc block exists and a side is still falsy; each still-falsy
side takes a truthy inferred schema with source `"jsdoc"`. -/
def docStep (doc : Option Inference) (s : SideState × SideState) :
    SideState × SideState :=
  match doc with
  | some d =>
    if !s.1.schema.truthy || !s.2.schema.truthy then
      ({ schema := if !s.1.schema.truthy && d.inputSchema.truthy
            then d.inputSchema else s.1.schema,
          source := if !s.1.schema.truthy && d.inputSchema.truthy
            then some "jsdoc" else s.1.source },
        { schema := if !s.2.schema.truthy && d.outputSchema.truthy
            then d.outputSchema else s.2.schema,
          source := if !s.2.schema.truthy && d.outputSchema.truthy
            then some "jsdoc" else s.2.source })
    else s
  | none => s

/-- The signature-inference step (commands.ts lines 1623–1634): same
shape as the JSDoc step, with source `"signature"`. -/
def sigStep (sig : Inference) (s : SideState × SideState) :
    SideState × SideState :=
  if !s.1.schema.truthy || !s.2.schema.truthy then
    ({ schema := if !s.1.schema.truthy && sig.inputSchema.truthy
          then sig.inputSchema else s.1.schema,
        source := if !s.1.schema.truthy && sig.inputSchema.truthy
          then some "signature" else s.1.source },
      { schema := if !s.2.schema.truthy && sig.outputSchema.truthy
          then sig.outputSchema else s.2.schema,
        source := if !s.2.schema.truthy && sig.outputSchema.truthy
          then some "signature" else s.2.source })
  else s

/-- The default step (commands.ts lines 1635–1648): a still-falsy
schema becomes the default schema; a still-unset source becomes
`"default"`. -/
def finalizeSides (s : SideState × SideState) : ResolvedSchemas :=
  { inputSchema := if !s.1.schema.truthy then defaultInputSchema
      else s.1.schema
    outputSchema := if !s.2.schema.truthy then defaultOutputSchema
      else s.2.schema
    inputSchemaSource := s.1.source.getD "default"
    outputSchemaSource := s.2.source.getD "default" }

/-- The schema-resolution chain of `discoverTools` (commands.ts lines
1582–1648): explicit export, then JSDoc inference, then signature
inference, then defaults; each side resolved independently, first
truthy match wins.  `doc = none` models a tool file with no doc
comment (`info?.docBlock` absent); `sig` is the result of
`inferSchemaFromSignature`. -/
def resolveToolSchemas (mod : String → JsVal) (name : String)
    (doc : Option Inference) (sig : Inference) : ResolvedSchemas :=
  finalizeSides (sigStep sig (docStep doc
    (explicitStep (chosenSchemaExport mod name))))

/-- First value in the list that is not `undefined` (the reference
reading of "first present export"). -/
def firstPresent : List JsVal → JsVal
  | [] => .undefined
  | v :: vs => if v.isUndefined then firstPresent vs else v

/-! ## `withTimeout` (runtime module lines 764–782) -/

/-- A JavaScript number as `withTimeout` inspects it: a finite value
(integral in every call site) or one of the non-finite values. -/
inductive JSNum where
  | fin (x : Int) : JSNum
  | nan : JSNum
  | posInf : JSNum
  | negInf : JSNum
deriving DecidableEq

/-- `Number.isFinite`. -/
def JSNum.isFinite : JSNum → Bool
  | .fin _ => true
  | _ => false

/-- `timeoutMs <= 0` under JavaScript comparison (`NaN <= 0` is
false). -/
def JSNum.jsLeZero : JSNum → Bool
  | .fin x => x ≤ 0
  | .nan => false
  | .posInf => false
  | .negInf => true

/-- Template-literal rendering of the number. -/
def JSNum.render : JSNum → String
  | .fin x => toString x
  | .nan => "NaN"
  | .posInf => "Infinity"
  | .negInf => "-Infinity"

/-- How the wrapped promise behaves relative to the timeout bound:
it settles (fulfills or rejects) within the bound, or it does not
settle within the bound (including never settling). -/
inductive PromiseBehavior (α : Type) where
  | settlesWithin (r : Except String α) : PromiseBehavior α
  | settlesLate : PromiseBehavior α

/-- What `withTimeout` hands back: the underlying promise unguarded
(no timer was armed), or a settled result of the race. -/
inductive TimeoutOutcome (α : Type) where
  | unguarded (p : PromiseBehavior α) : TimeoutOutcome α
  | settled (r : Except String α) : TimeoutOutcome α

/-- `withTimeout` (runtime module lines 764–782): a non-finite or
non-positive `timeoutMs` returns the promise unguarded; otherwise the
promise races a timer that rejects with the labelled message. -/
def withTimeout {α : Type} (promise : PromiseBehavior α) (timeoutMs : JSNum)
    (label : String) : TimeoutOutcome α :=
  if !timeoutMs.isFinite || timeoutMs.jsLeZero then .unguarded promise
  else
    match promise with
    | .settlesWithin r => .settled r
    | .settlesLate =>
      .settled (.error (label ++ " timed out after " ++ timeoutMs.render ++ "ms"))

/-! ## Concrete fixtures used by witnesses and counterexamples -/

/-- A dispatcher environment with no descriptors and benign oracles. -/
def oracleEnv : DispatchEnv where
  tools := []
  resources := []
  prompts := []
  manifestProtocolVersion := none
  validate := fun _ _ => { ok := true, error := none }
  load := fun _ => .loaded .asyncFn
  run := fun _ _ => .resolves .undefined
  stringify := fun _ => ""
  readFile := fun _ => ""

/-- A tool whose input schema (handle `0`) is present. -/
def toolAlpha : MTool where
  name := "alpha"
  file := "tools/alpha.ts"
  location := none
  inputSchema := some 0
  outputSchema := none
  inputSchemaSource := some "schema"
  outputSchemaSource := some "schema"

/-- Environment in which every validation fails. -/
def envAlpha : DispatchEnv :=
  { oracleEnv with
    tools := [toolAlpha]
    validate := fun _ _ => { ok := false, error := some "bad input" } }

/-- A tool that expects structured output (source `"schema"`) and has
no input schema. -/
def toolBeta : MTool where
  name := "beta"
  file := "tools/beta.ts"
  location := some (3, 1)
  inputSchema := none
  outputSchema := none
  inputSchemaSource := none
  outputSchemaSource := some "schema"

/-- Environment whose only tool is `toolBeta`; its handler resolves
with `undefined`. -/
def envBeta : DispatchEnv := { oracleEnv with tools := [toolBeta] }

/-- `{"jsonrpc":"2.0","method":"ping"}` — a well-formed notification
(no `id`). -/
def reqPingNoId : RpcRequest where
  jsonrpc := some "2.0"
  id := none
  method := some "ping"
  params := .undefined

/-- A `tools/call` request naming a tool that is not discovered. -/
def reqCallUnknown : RpcRequest where
  jsonrpc := some "2.0"
  id := some (.num 1)
  method := some "tools/call"
  params := .obj [("name", .str "missing")]

/-- A `tools/call` request for `toolAlpha` with arguments. -/
def reqCallAlpha : RpcRequest where
  jsonrpc := some "2.0"
  id := some (.num 2)
  method := some "tools/call"
  params := .obj [("name", .str "alpha"), ("arguments", .obj [("x", .num 1)])]

/-- A `tools/call` request for `toolBeta`. -/
def reqCallBeta : RpcRequest where
  jsonrpc := some "2.0"
  id := some (.num 3)
  method := some "tools/call"
  params := .obj [("name", .str "beta")]

/-- A module exporting an explicit `schema` object with both sides,
alongside well-formed doc inference results that must lose. -/
def modExplicit : String → JsVal := fun k =>
  if k = "schema" then
    .obj [("input", .obj [("type", .str "object")]),
      ("output", .obj [("type", .str "string")])]
  else .undefined

/-- A module whose only schema-bearing export is `toolSchema`. -/
def modToolSchemaOnly : String → JsVal := fun k =>
  if k = "toolSchema" then .obj [("input", .obj [("type", .str "object")])]
  else .undefined

/-- A doc/signature inference result that offers schemas for both
sides. -/
def inferenceBoth : Inference where
  inputSchema := .obj [("type", .str "object"), ("title", .str "doc")]
  outputSchema := .obj [("type", .str "number")]

/-- The error code of a response, when it is an error envelope. -/
def respErrCode : Option RpcResponse → Option Int
  | some (RpcResponse.err _ c _ _) => some c
  | _ => none

/-! ## Helper lemmas on the string primitives -/

theorem splitOnChar_ne_nil (sep : Char) (l : List Char) :
    splitOnChar sep l ≠ [] := by
  cases l with
  | nil => simp [splitOnChar]
  | cons c rest =>
    simp only [splitOnChar]
    split <;> simp

theorem joinSep_cons_cons (sep : Char) (a b : List Char)
    (bs : List (List Char)) :
    joinSep sep (a :: b :: bs) = a ++ sep :: joinSep sep (b :: bs) := rfl

theorem joinSep_splitOnChar (sep : Char) (l : List Char) :
    joinSep sep (splitOnChar sep l) = l := by
  induction l with
  | nil => rfl
  | cons c rest ih =>
    simp only [splitOnChar]
    by_cases hc : c = sep
    · subst hc
      simp only [if_pos rfl]
      rcases hr : splitOnChar c rest with _ | ⟨a, as⟩
      · exact absurd hr (splitOnChar_ne_nil c rest)
      · rw [hr] at ih
        simpa [joinSep_cons_cons] using ih
    · simp only [if_neg hc]
      rcases hr : splitOnChar sep rest with _ | ⟨a, as⟩
      · exact absurd hr (splitOnChar_ne_nil sep rest)
      · rw [hr] at ih
        cases as with
        | nil => simpa [joinSep] using ih
        | cons b bs =>
          simp only [List.headD_cons, List.tail_cons]
          rw [joinSep_cons_cons] at ih
          rw [joinSep_cons_cons]
          simp [← ih]

theorem splitOnChar_not_mem (sep : Char) (l : List Char) (h : sep ∉ l) :
    splitOnChar sep l = [l] := by
  induction l with
  | nil => rfl
  | cons c rest ih =>
    simp only [List.mem_cons, not_or] at h
    have hr := ih h.2
    have hcs : ¬ c = sep := fun hc => h.1 hc.symm
    simp [splitOnChar, hr, hcs]

theorem splitOnChar_append_sep (sep : Char) (s t : List Char)
    (h : sep ∉ t) :
    splitOnChar sep (s ++ sep :: t) = splitOnChar sep s ++ [t] := by
  induction s with
  | nil =>
    simp [splitOnChar, splitOnChar_not_mem sep t h]
  | cons c s ih =>
    by_cases hc : c = sep
    · subst hc
      simp [splitOnChar, ih]
    · simp only [List.cons_append, splitOnChar, if_neg hc, List.append_eq]
      rw [ih]
      rcases hr : splitOnChar sep s with _ | ⟨a, as⟩
      · exact absurd hr (splitOnChar_ne_nil sep s)
      · simp [hr]

theorem mem_splitOnChar_not_mem (sep : Char) (l p : List Char)
    (hp : p ∈ splitOnChar sep l) : sep ∉ p := by
  induction l generalizing p with
  | nil =>
    simp only [splitOnChar, List.mem_singleton] at hp
    subst hp; simp
  | cons c rest ih =>
    simp only [splitOnChar] at hp
    by_cases hc : c = sep
    · rw [if_pos hc] at hp
      rcases List.mem_cons.mp hp with h | h
      · subst h; simp
      · exact ih p h
    · rw [if_neg hc] at hp
      rcases hr : splitOnChar sep rest with _ | ⟨a, as⟩
      · exact absurd hr (splitOnChar_ne_nil sep rest)
      · rw [hr] at hp
        simp only [List.headD_cons, List.tail_cons] at hp
        rcases List.mem_cons.mp hp with h | h
        · subst h
          intro hmem
          rcases List.mem_cons.mp hmem with h' | h'
          · exact hc h'.symm
          · exact ih a (by rw [hr]; exact List.mem_cons_self a as) h'
        · exact ih p (by rw [hr]; exact List.mem_cons_of_mem a h)

theorem not_mem_joinSep (c sep : Char) (ps : List (List Char))
    (hne : c ≠ sep) (h : ∀ p ∈ ps, c ∉ p) : c ∉ joinSep sep ps := by
  induction ps with
  | nil => simp [joinSep]
  | cons a as ih =>
    cases as with
    | nil => simpa [joinSep] using h a (List.mem_cons_self a [])
    | cons b bs =>
      rw [joinSep_cons_cons]
      simp only [List.mem_append, List.mem_cons, not_or]
      refine ⟨h a (List.mem_cons_self a _), hne, ?_⟩
      have := ih (fun p hp => h p (List.mem_cons_of_mem a hp))
      simpa using this

theorem splitLinesCRLF_eq_splitOnChar (l : List Char) (h : '\r' ∉ l) :
    splitLinesCRLF l = splitOnChar '\n' l := by
  induction l with
  | nil => rfl
  | cons c rest ih =>
    simp only [List.mem_cons, not_or] at h
    have hcr : ¬ c = '\r' := fun hc => h.1 hc.symm
    have ih' := ih h.2
    by_cases hn : c = '\n'
    · subst hn
      rw [show splitLinesCRLF ('\n' :: rest) = [] :: splitLinesCRLF rest from rfl]
      simp [splitOnChar, ih']
    · have hstep : splitLinesCRLF (c :: rest) =
          (c :: (splitLinesCRLF rest).headD []) :: (splitLinesCRLF rest).tail := by
        rw [splitLinesCRLF.eq_def]
        split
        all_goals simp_all
      rw [hstep, ih']
      simp [splitOnChar, if_neg hn]

theorem joinSep_take_drop (sep : Char) :
    ∀ (ls : List (List Char)) (k : Nat), 0 < k → k ≤ ls.length →
      joinSep sep ls = joinSep sep (ls.take k) ++
        (if k < ls.length then sep :: joinSep sep (ls.drop k) else []) := by
  intro ls
  induction ls with
  | nil => intro k hk hkl; simp at hkl; omega
  | cons a as ih =>
    intro k hk hkl
    match k, hk with
    | 1, _ =>
      cases as with
      | nil => simp [joinSep]
      | cons b bs =>
        simp only [List.take_succ_cons, List.take_zero, List.drop_succ_cons,
          List.drop_zero, List.length_cons]
        rw [joinSep_cons_cons]
        have : 1 < bs.length + 1 + 1 := by omega
        simp [joinSep, this]
    | (k' + 2), _ =>
      have hk' : 0 < k' + 1 := by omega
      have hkl' : k' + 1 ≤ as.length := by
        simp only [List.length_cons] at hkl; omega
      cases as with
      | nil => simp at hkl'
      | cons b bs =>
        have hrec := ih (k' + 1) hk' hkl'
        obtain ⟨t, ts, ht⟩ : ∃ t ts, (b :: bs).take (k' + 1) = t :: ts := by
          cases h : (b :: bs).take (k' + 1) with
          | nil => simp [List.take_eq_nil_iff] at h
          | cons t ts => exact ⟨t, ts, rfl⟩
        have ht2 : (a :: b :: bs).take (k' + 2) = a :: (b :: bs).take (k' + 1) := rfl
        have hd2 : (a :: b :: bs).drop (k' + 2) = (b :: bs).drop (k' + 1) := rfl
        by_cases hlt : k' + 1 < (b :: bs).length
        · have hlt2 : k' + 2 < (a :: b :: bs).length := by
            simp only [List.length_cons] at hlt ⊢; omega
          rw [if_pos hlt] at hrec
          rw [if_pos hlt2, ht2, hd2, ht, joinSep_cons_cons, joinSep_cons_cons,
            hrec, ht]
          simp
        · have hlt2 : ¬ (k' + 2 < (a :: b :: bs).length) := by
            simp only [List.length_cons] at hlt ⊢; omega
          rw [if_neg hlt] at hrec
          rw [if_neg hlt2, ht2, ht, joinSep_cons_cons, joinSep_cons_cons,
            hrec, ht]
          simp

theorem findCloseFrom_bounds (ls : List (List Char)) :
    ∀ (i e : Nat), findCloseFrom i ls = some e → i ≤ e ∧ e < i + ls.length := by
  induction ls with
  | nil => intro i e h; simp [findCloseFrom] at h
  | cons a as ih =>
    intro i e h
    rw [findCloseFrom] at h
    split at h
    · cases h; simp
    · have := ih (i + 1) e h
      constructor
      · omega
      · simp only [List.length_cons]; omega

theorem startsWithCL_append (p q : List Char) :
    startsWithCL p (p ++ q) = true := by
  induction p with
  | nil => rfl
  | cons c cs ih => simp [startsWithCL, ih]

theorem pathRelative_pathJoin (base r : List Char) :
    pathRelative base (pathJoin base r) = r := by
  have heq : pathJoin base r = (base ++ ['/']) ++ r := by
    simp [pathJoin]
  rw [pathRelative, heq, if_pos (startsWithCL_append (base ++ ['/']) r)]
  have hlen : base.length + 1 = (base ++ ['/']).length := by simp
  rw [hlen, List.drop_left]

theorem splitByTopLevelGo_no_delim (delim : Char) :
    ∀ (cs : List Char) (depth : Int) (current : List Char)
      (parts : List (List Char)),
      hasTopLevelDelim delim cs depth = false →
      splitByTopLevelGo delim cs depth current parts =
        if trimCL (current ++ cs) = [] then parts
        else parts ++ [trimCL (current ++ cs)] := by
  intro cs
  induction cs with
  | nil => intro depth current parts _; simp [splitByTopLevelGo]
  | cons c rest ih =>
    intro depth current parts h
    rw [hasTopLevelDelim] at h
    rw [splitByTopLevelGo]
    set d1 := (if c = '{' ∨ c = '[' ∨ c = '<' ∨ c = '(' then depth + 1 else depth)
      with hd1
    set d2 := (if c = '}' ∨ c = ']' ∨ c = '>' ∨ c = ')' then d1 - 1 else d1)
      with hd2
    by_cases hcond : c = delim ∧ d2 = 0
    · rw [if_pos hcond] at h
      simp at h
    · rw [if_neg hcond] at h
      rw [if_neg hcond, ih _ _ _ h]
      simp [List.append_assoc]

theorem isObjLike_truthy (v : JsVal) (h : v.isObjLike = true) :
    v.truthy = true := by
  cases v <;> simp_all [JsVal.isObjLike, JsVal.truthy]

theorem isObjLike_typeofObject (v : JsVal) (h : v.isObjLike = true) :
    v.typeofObject = true := by
  cases v <;> simp_all [JsVal.isObjLike, JsVal.typeofObject]

theorem truthy_not_isUndefined (v : JsVal) (h : v.truthy = true) :
    v.isUndefined = false := by
  cases v <;> simp_all [JsVal.truthy, JsVal.isUndefined]

/-! ## Claim C1 -/

/-- C1: for the notification `{"jsonrpc":"2.0","method":"ping"}` (no
`id`), the single-message path of `handleRequest` returns `null` and
the batch path collects no entry — but the SSE streaming path
(`handleStream`) does emit a frame for it, because line 1588
destructures only `response` and ignores the `notification` flag.
This exhibits the code bug in the third conjunct of the claim: the
frame `{"jsonrpc":"2.0","id":null,"result":{}}` is written for a
notification. -/
theorem C1_sse_frame_emitted_for_notification :
    handleRequestSingleParsed oracleEnv reqPingNoId = none ∧
    handleBatchParsed oracleEnv [reqPingNoId] = none ∧
    handleStreamParsed oracleEnv [reqPingNoId] =
      [RpcResponse.ok RpcId.null RpcResult.emptyObj] ∧
    (handleSingle oracleEnv reqPingNoId).notification = true :=
  ⟨rfl, rfl, rfl, rfl⟩

/-! ## Claim C3 -/

/-- C3, counterexample: the CRLF document
`"---\r\n---\r\na\r\nb"` starts with a delimiter line and closes it on
the second line; removing the frontmatter block (the first two lines
with their terminators) leaves `"a\r\nb"`, yet the parser's body is
`"a\nb"` — the CRLF pair of the body was rewritten to a bare newline,
so the round trip is not byte-for-byte. -/
theorem C3_counterexample_crlf_body :
    ("---\r\n---\r\n".data ++ "a\r\nb".data = ("---\r\n---\r\na\r\nb").data) ∧
    parseFrontmatterBody ("---\r\n---\r\na\r\nb").data = "a\nb".data ∧
    parseFrontmatterBody ("---\r\n---\r\na\r\nb").data ≠ "a\r\nb".data := by
  refine ⟨by decide, by decide, by decide⟩

/-- C3, amended: for a document whose line terminators are all bare
`"\n"` (no carriage returns), that starts with the delimiter and has a
closing delimiter line, the parsed body is exactly the document with
the frontmatter block removed: block and body concatenate back to the
document byte-for-byte. -/
theorem C3_amended_body_roundtrip (content : List Char)
    (hcr : '\r' ∉ content)
    (hstart : startsWithCL ['-', '-', '-'] content = true)
    (hclose : (findClose (splitLinesCRLF content)).isSome = true) :
    fmBlock content ++ parseFrontmatterBody content = content := by
  obtain ⟨e, he⟩ := Option.isSome_iff_exists.mp hclose
  have hjoin : joinSep '\n' (splitLinesCRLF content) = content := by
    rw [splitLinesCRLF_eq_splitOnChar content hcr]
    exact joinSep_splitOnChar '\n' content
  have hbody : parseFrontmatterBody content =
      joinSep '\n' ((splitLinesCRLF content).drop (e + 1)) := by
    have h1 : parseFrontmatterBody content =
        (match findClose (splitLinesCRLF content) with
          | none => content
          | some k => joinSep '\n' ((splitLinesCRLF content).drop (k + 1))) := by
      rw [parseFrontmatterBody, if_neg (by rw [hstart]; simp)]
    rw [h1, he]
  have hblock : fmBlock content =
      joinSep '\n' ((splitLinesCRLF content).take (e + 1)) ++
        (if e + 1 < (splitLinesCRLF content).length then ['\n'] else []) := by
    have h1 : fmBlock content =
        (match findClose (splitLinesCRLF content) with
          | none => []
          | some k =>
            joinSep '\n' ((splitLinesCRLF content).take (k + 1)) ++
              (if k + 1 < (splitLinesCRLF content).length then ['\n'] else [])) :=
      rfl
    rw [h1, he]
  have hbound : e + 1 ≤ (splitLinesCRLF content).length := by
    rcases hl : splitLinesCRLF content with _ | ⟨a, rest⟩
    · rw [findClose.eq_def, hl] at he
      exact absurd he (by simp)
    · rw [findClose.eq_def, hl] at he
      have he' : findCloseFrom 1 rest = some e := he
      have := findCloseFrom_bounds rest 1 e he'
      simp only [List.length_cons]
      omega
  have hsplit := joinSep_take_drop '\n' (splitLinesCRLF content) (e + 1)
    (by omega) hbound
  rw [hblock, hbody]
  by_cases hlt : e + 1 < (splitLinesCRLF content).length
  · rw [if_pos hlt] at hsplit ⊢
    calc joinSep '\n' (List.take (e + 1) (splitLinesCRLF content)) ++ ['\n'] ++
          joinSep '\n' (List.drop (e + 1) (splitLinesCRLF content))
        = joinSep '\n' (List.take (e + 1) (splitLinesCRLF content)) ++
          '\n' :: joinSep '\n' (List.drop (e + 1) (splitLinesCRLF content)) := by
          simp
      _ = joinSep '\n' (splitLinesCRLF content) := hsplit.symm
      _ = content := hjoin
  · rw [if_neg hlt] at hsplit ⊢
    have hdrop : List.drop (e + 1) (splitLinesCRLF content) = [] :=
      List.drop_eq_nil_of_le (by omega)
    rw [hdrop]
    simp only [List.append_nil] at hsplit ⊢
    have hj : joinSep '\n' ([] : List (List Char)) = [] := rfl
    rw [hj, List.append_nil, ← hsplit]
    exact hjoin

/-- C3, witness for the amended theorem at the LF document
`"---\na: b\n---\nbody"`. -/
theorem C3_amended_body_roundtrip_witness :
    fmBlock ("---\na: b\n---\nbody").data ++
      parseFrontmatterBody ("---\na: b\n---\nbody").data =
      ("---\na: b\n---\nbody").data :=
  C3_amended_body_roundtrip ("---\na: b\n---\nbody").data
    (by decide) (by decide) (by decide)

/-! ## Claim C2 -/

/-- C2, counterexample: with repo root `/repo` and `toolsDir`
`tools`, the file `/repo/tools/hello.ts` has repo-relative path
`tools/hello.ts`; applying the claimed derivation to that path yields
`tools-hello`, but discovery names the tool `hello` (the repository's
own documentation gives `tools/hello.ts -> hello`). -/
theorem C2_counterexample_repo_relative :
    repoRelativePath "/repo".data "tools".data "hello.ts".data =
      "tools/hello.ts".data ∧
    toolNameFromPath "tools/hello.ts".data = "tools-hello".data ∧
    discoveredToolName "/repo".data "tools".data "hello.ts".data =
      "hello".data ∧
    toolNameFromPath "tools/hello.ts".data ≠
      discoveredToolName "/repo".data "tools".data "hello.ts".data := by
  refine ⟨by decide, by decide, by decide, by decide⟩

/-- C2, amended: the descriptor's name equals the file's path relative
to the **tools directory** (not the repo root), with the extension
removed and the remaining path segments joined with `-`.  Stated for a
file `stem.ext` whose extension is nonempty and contains neither `.`
nor `/` — guaranteed by discovery, which only admits files whose
`path.extname` is one of `.ts`, `.js`, `.mjs`, `.cjs`. -/
theorem C2_amended_name_from_tools_relative_path
    (cwd toolsDir stem ext : List Char)
    (hne : ext ≠ []) (hdot : '.' ∉ ext) :
    discoveredToolName cwd toolsDir (stem ++ '.' :: ext) =
      joinSep '-' (splitOnChar '/' stem) := by
  rw [discoveredToolName]
  rw [pathRelative_pathJoin]
  have hsplit : splitOnChar '.' (stem ++ '.' :: ext) =
      splitOnChar '.' stem ++ [ext] :=
    splitOnChar_append_sep '.' stem ext hdot
  have hstemjoin : joinSep '.' (splitOnChar '.' stem) = stem :=
    joinSep_splitOnChar '.' stem
  have hdropext : jsDropLastExt (stem ++ '.' :: ext) = stem := by
    rw [jsDropLastExt, hsplit]
    have hlen : 2 ≤ (splitOnChar '.' stem ++ [ext]).length := by
      rcases h : splitOnChar '.' stem with _ | ⟨a, as⟩
      · exact absurd h (splitOnChar_ne_nil '.' stem)
      · simp
    have hlast : (splitOnChar '.' stem ++ [ext]).getLastD [] = ext := by
      simp [List.getLastD_concat]
    rw [if_pos ⟨hlen, by rw [hlast]; exact hne⟩]
    rw [List.dropLast_concat, hstemjoin]
  rw [toolNameFromPath, hdropext]
  have hnosl : '/' ∉ joinSep '-' (splitOnChar '/' stem) := by
    refine not_mem_joinSep '/' '-' (splitOnChar '/' stem) (by decide) ?_
    intro p hp
    exact mem_splitOnChar_not_mem '/' stem p hp
  rw [splitOnChar_not_mem '/' _ hnosl]
  rfl

/-- C2, witness for the amended theorem: `user/profile.ts` under
`/repo/tools` is named `user-profile`. -/
theorem C2_amended_name_witness :
    discoveredToolName "/repo".data "tools".data
      ("user/profile".data ++ '.' :: "ts".data) =
      joinSep '-' (splitOnChar '/' "user/profile".data) :=
  C2_amended_name_from_tools_relative_path "/repo".data "tools".data
    "user/profile".data "ts".data (by decide) (by decide)

/-! ## Claim C4 -/

/-- C4, counterexample: in the type expression `"a|b" | number` the
first `|` sits inside a quoted string literal, yet `splitByTopLevel`
splits there, producing three parts instead of the two a
string-literal-aware splitter would produce: the splitter tracks only
bracket depth and has no quote handling. -/
theorem C4_counterexample_quoted_delimiter :
    splitByTopLevel ("\"a|b\" | number").data '|' =
      ["\"a".data, "b\"".data, "number".data] ∧
    ¬ ("\"a|b\"").data ∈ splitByTopLevel ("\"a|b\" | number").data '|' := by
  refine ⟨by decide, by decide⟩

/-- C4, amended: the top-level splitting on `|` and `&` is depth-aware
— when the delimiter never occurs at bracket depth 0 (nesting of
`{`, `[`, `<`, `(` tracked exactly as the code does), the input is
never split — but it is not string-literal-aware: a delimiter inside a
quoted literal at depth 0 does split (see the counterexample). -/
theorem C4_amended_depth_aware_only (input : List Char) (delim : Char)
    (h : hasTopLevelDelim delim input 0 = false) :
    splitByTopLevel input delim =
      if trimCL input = [] then [] else [trimCL input] := by
  rw [splitByTopLevel, splitByTopLevelGo_no_delim delim input 0 [] [] h]
  simp

/-- C4, witness for the amended theorem: `Record<a|b, c>` has its only
`|` at positive depth, so it is returned whole. -/
theorem C4_amended_depth_aware_only_witness :
    splitByTopLevel ("Record<a|b, c>").data '|' =
      (if trimCL ("Record<a|b, c>").data = [] then []
        else [trimCL ("Record<a|b, c>").data]) :=
  C4_amended_depth_aware_only ("Record<a|b, c>").data '|' (by decide)

theorem handleSingle_tools_call (env : DispatchEnv) (req : RpcRequest)
    (hj : req.jsonrpc = some "2.0")
    (hm : normalizeMethod req.method = some "tools/call") :
    handleSingle env req = handleToolsCall env req req.isNotification := by
  rw [handleSingle, hm]
  rw [if_neg (by simp [hj])]
  rfl

/-! ## Claim C5 -/

/-- C5, counterexample: a `tools/call` naming the undiscovered tool
`missing` is answered with error code `−32602` and message
`unknown tool` — not with the claimed `−32601` (lines 1683–1689 of
the runtime module pass `-32602` to `invalidRequest`). -/
theorem C5_counterexample_unknown_tool_code :
    (handleSingle oracleEnv reqCallUnknown).response =
      some (RpcResponse.err (RpcId.num 1) (-32602) "unknown tool" none) ∧
    respErrCode (handleSingle oracleEnv reqCallUnknown).response =
      some (-32602) ∧
    respErrCode (handleSingle oracleEnv reqCallUnknown).response ≠
      some (-32601) := by
  refine ⟨rfl, rfl, ?_⟩
  intro h
  rw [show respErrCode (handleSingle oracleEnv reqCallUnknown).response =
    some (-32602) from rfl] at h
  simp only [Option.some.injEq] at h
  omega

/-- C5, amended: a `tools/call` request whose params name a tool that
is not in the discovered tool set is answered with a JSON-RPC error
with code `−32602` — message `unknown tool` when the name is a
nonempty string, and `invalid params` when it is the empty string
(the `if (!toolName)` guard of line 1674 treats `""` as falsy and
answers before the lookup) — never `−32601`. -/
theorem C5_amended_unknown_tool (env : DispatchEnv) (req : RpcRequest)
    (p : JsVal) (toolName : String)
    (hj : req.jsonrpc = some "2.0")
    (hm : normalizeMethod req.method = some "tools/call")
    (hp : asRecord req.params = some p)
    (hname : p.get "name" = JsVal.str toolName)
    (hfind : env.tools.find? (fun t => t.name == toolName) = none) :
    handleSingle env req =
      { response := some (invalidRequest req.respId
          (if toolName = "" then "invalid params" else "unknown tool")
          (-32602)),
        notification := req.isNotification, events := [] } := by
  rw [handleSingle_tools_call env req hj hm]
  by_cases he : toolName = ""
  · simp only [handleToolsCall, hp, Option.getD_some, hname, if_pos he]
  · simp only [handleToolsCall, hp, Option.getD_some, hname, if_neg he,
      hfind]

/-- C5, witness for the amended theorem at the concrete request
`reqCallUnknown` (nonempty name `missing`) against the empty tool
set. -/
theorem C5_amended_unknown_tool_witness :
    handleSingle oracleEnv reqCallUnknown =
      { response := some (invalidRequest reqCallUnknown.respId
          (if "missing" = "" then "invalid params" else "unknown tool")
          (-32602)),
        notification := reqCallUnknown.isNotification, events := [] } :=
  C5_amended_unknown_tool oracleEnv reqCallUnknown
    (JsVal.obj [("name", JsVal.str "missing")]) "missing"
    rfl rfl rfl rfl rfl

/-! ## Claim C6 -/

/-- C6: a `tools/call` whose arguments fail validation against the
tool's resolved input schema is answered with a JSON-RPC error of code
`−32602` (message `input validation failed`), and no tool-call effect
occurs: the handler module is neither loaded nor invoked (the events
trace is empty — `loadToolModule` runs only after validation
passes). -/
theorem C6_invalid_input_blocks_handler (env : DispatchEnv)
    (req : RpcRequest) (p : JsVal) (toolName : String) (tool : MTool)
    (sid : Nat)
    (hj : req.jsonrpc = some "2.0")
    (hm : normalizeMethod req.method = some "tools/call")
    (hp : asRecord req.params = some p)
    (hname : p.get "name" = JsVal.str toolName)
    (hfind : env.tools.find? (fun t => t.name == toolName) = some tool)
    (hnn : tool.name ≠ "")
    (hschema : tool.inputSchema = some sid)
    (hval : (env.validate sid (callArgsOf p)).ok = false) :
    handleSingle env req =
      { response := some (invalidRequest req.respId
          "input validation failed" (-32602)),
        notification := req.isNotification, events := [] } := by
  rw [handleSingle_tools_call env req hj hm]
  have heq : tool.name = toolName := by
    have hpred := List.find?_some hfind
    simpa [beq_iff_eq] using hpred
  have hne : toolName ≠ "" := heq ▸ hnn
  have hok : inputOk env tool (callArgsOf p) = false := by
    rw [inputOk, hschema]
    exact hval
  simp [handleToolsCall, hp, Option.getD_some, hname, hne, hfind, hok]

/-- C6, witness: calling `alpha` in `envAlpha`, where validation
fails, yields the `−32602` error with no load/invoke events. -/
theorem C6_invalid_input_blocks_handler_witness :
    handleSingle envAlpha reqCallAlpha =
      { response := some (invalidRequest reqCallAlpha.respId
          "input validation failed" (-32602)),
        notification := reqCallAlpha.isNotification, events := [] } :=
  C6_invalid_input_blocks_handler envAlpha reqCallAlpha
    (JsVal.obj [("name", JsVal.str "alpha"),
      ("arguments", JsVal.obj [("x", JsVal.num 1)])])
    "alpha" toolAlpha 0 rfl rfl rfl rfl rfl (by decide) rfl rfl

/-! ## Claim C7 -/

/-- C7: a `tools/call` for a tool whose `outputSchemaSource` differs
from `default`, whose handler (an async function) resolves with
`undefined`, is answered with an RPC **success** envelope (a `result`,
not an `error`) whose result has `isError: true` and whose text is
`structured output required for <name> (<location>)` — mentioning
"structured output required". -/
theorem C7_structured_output_required (env : DispatchEnv)
    (req : RpcRequest) (p : JsVal) (toolName : String) (tool : MTool)
    (src : String)
    (hj : req.jsonrpc = some "2.0")
    (hm : normalizeMethod req.method = some "tools/call")
    (hp : asRecord req.params = some p)
    (hname : p.get "name" = JsVal.str toolName)
    (hfind : env.tools.find? (fun t => t.name == toolName) = some tool)
    (hnn : tool.name ≠ "")
    (hinput : inputOk env tool (callArgsOf p) = true)
    (hload : env.load tool.file = LoadResult.loaded LoadedDefault.asyncFn)
    (hrun : env.run tool.file (callArgsOf p) = RunOutcome.resolves JsVal.undefined)
    (hsrc : tool.outputSchemaSource = some src)
    (hdefault : src ≠ "default") :
    handleSingle env req =
      { response := some (RpcResponse.ok req.respId (RpcResult.toolR
          { text := "structured output required for " ++ toolName ++
              " (" ++ formatToolLocation tool ++ ")",
            isError := true, structured := none })),
        notification := req.isNotification,
        events := [CallEvent.moduleLoaded, CallEvent.handlerInvoked] } := by
  rw [handleSingle_tools_call env req hj hm]
  have heq : tool.name = toolName := by
    have hpred := List.find?_some hfind
    simpa [beq_iff_eq] using hpred
  have hne : toolName ≠ "" := heq ▸ hnn
  have hok : ¬ (inputOk env tool (callArgsOf p) = false) := by
    rw [hinput]; simp
  have hbne : (src != "default") = true := by
    simp [bne_iff_ne, hdefault]
  simp [handleToolsCall, hp, Option.getD_some, hname, hne, hfind,
    hok, hload, hrun, hsrc, hbne, JsVal.isUndefined]

/-- C7, witness: calling `beta` in `envBeta` (handler resolves
`undefined`, output schema source `"schema"`) yields the success
envelope with `isError: true` and the structured-output-required
text. -/
theorem C7_structured_output_required_witness :
    handleSingle envBeta reqCallBeta =
      { response := some (RpcResponse.ok reqCallBeta.respId (RpcResult.toolR
          { text := "structured output required for " ++ "beta" ++
              " (" ++ formatToolLocation toolBeta ++ ")",
            isError := true, structured := none })),
        notification := reqCallBeta.isNotification,
        events := [CallEvent.moduleLoaded, CallEvent.handlerInvoked] } :=
  C7_structured_output_required envBeta reqCallBeta
    (JsVal.obj [("name", JsVal.str "beta")]) "beta" toolBeta "schema"
    rfl rfl rfl rfl rfl (by decide) rfl rfl rfl rfl (by decide)

theorem jsNullish_undefined (b : JsVal) : jsNullish JsVal.undefined b = b := rfl

theorem isUndefined_undefined : JsVal.undefined.isUndefined = true := rfl

theorem jsNullish_objLike (v : JsVal) (h : v.isObjLike = true) :
    ∀ b, jsNullish v b = v := by
  intro b
  cases v <;> simp_all [JsVal.isObjLike, jsNullish]

theorem isObjLike_not_undefined (v : JsVal) (h : v.isObjLike = true) :
    v.isUndefined = false := by
  cases v <;> simp_all [JsVal.isObjLike, JsVal.isUndefined]

/-! ## Claim C10 -/

/-- C10: `withTimeout` returns the underlying promise unguarded for
every timeout value that is not a finite number or is not positive;
for a finite positive timeout, a promise that does not settle within
the bound makes `withTimeout` reject with exactly the message
`<label> timed out after <timeoutMs>ms`. -/
theorem C10_withTimeout_guard_and_message (α : Type)
    (p : PromiseBehavior α) (t : JSNum) (label : String) :
    ((t.isFinite = false ∨ t.jsLeZero = true) →
      withTimeout p t label = TimeoutOutcome.unguarded p) ∧
    (∀ x : Int, t = JSNum.fin x → 0 < x →
      p = PromiseBehavior.settlesLate →
      withTimeout p t label = TimeoutOutcome.settled (Except.error
        (label ++ " timed out after " ++ toString x ++ "ms"))) := by
  constructor
  · intro h
    rw [withTimeout.eq_def, if_pos]
    rcases h with h | h <;> simp [h]
  · intro x hx hpos hp
    subst hx
    subst hp
    rw [withTimeout.eq_def, if_neg]
    · rfl
    · simp only [JSNum.isFinite, JSNum.jsLeZero, Bool.not_true,
        Bool.false_or, decide_eq_true_eq]
      omega

/-- C10, witness: a timeout of 5 against a promise that does not
settle in time rejects with `slow timed out after 5ms`; a `NaN`
timeout leaves the promise unguarded. -/
theorem C10_withTimeout_guard_and_message_witness :
    withTimeout (PromiseBehavior.settlesLate : PromiseBehavior Nat)
        (JSNum.fin 5) "slow" =
      TimeoutOutcome.settled (Except.error
        ("slow timed out after " ++ toString (5 : Int) ++ "ms")) ∧
    withTimeout (PromiseBehavior.settlesWithin (Except.ok 7) :
        PromiseBehavior Nat) JSNum.nan "slow" =
      TimeoutOutcome.unguarded (PromiseBehavior.settlesWithin (Except.ok 7)) :=
  ⟨(C10_withTimeout_guard_and_message Nat PromiseBehavior.settlesLate
      (JSNum.fin 5) "slow").2 5 rfl (by decide) rfl,
    (C10_withTimeout_guard_and_message Nat
      (PromiseBehavior.settlesWithin (Except.ok 7)) JSNum.nan "slow").1
      (Or.inl rfl)⟩

/-! ## Step lemmas for the discovery schema-resolution chain -/

theorem explicitStep_fst_truthy (se : JsVal)
    (h1 : se.truthy = true) (h2 : se.typeofObject = true)
    (h3 : (se.get "input").truthy = true) :
    (explicitStep se).1 =
      { schema := se.get "input", source := some "schema" } := by
  rw [explicitStep]
  simp [h1, h2, h3]

theorem explicitStep_snd_truthy (se : JsVal)
    (h1 : se.truthy = true) (h2 : se.typeofObject = true)
    (h3 : (se.get "output").truthy = true) :
    (explicitStep se).2 =
      { schema := se.get "output", source := some "schema" } := by
  rw [explicitStep]
  simp [h1, h2, h3]

theorem docStep_fst_truthy (doc : Option Inference)
    (s : SideState × SideState) (h : s.1.schema.truthy = true) :
    (docStep doc s).1 = s.1 := by
  cases doc with
  | none => rfl
  | some d =>
    rw [docStep]
    split_ifs <;> simp_all

theorem docStep_snd_truthy (doc : Option Inference)
    (s : SideState × SideState) (h : s.2.schema.truthy = true) :
    (docStep doc s).2 = s.2 := by
  cases doc with
  | none => rfl
  | some d =>
    rw [docStep]
    split_ifs <;> simp_all

theorem sigStep_fst_truthy (sig : Inference)
    (s : SideState × SideState) (h : s.1.schema.truthy = true) :
    (sigStep sig s).1 = s.1 := by
  rw [sigStep]
  split_ifs <;> simp_all

theorem sigStep_snd_truthy (sig : Inference)
    (s : SideState × SideState) (h : s.2.schema.truthy = true) :
    (sigStep sig s).2 = s.2 := by
  rw [sigStep]
  split_ifs <;> simp_all

theorem explicitStep_fst_source (se : JsVal)
    (h : (explicitStep se).1.source = some "schema") :
    (se.get "input").truthy = true := by
  by_cases hi : (se.get "input").truthy = true
  · exact hi
  · exfalso
    rw [explicitStep] at h
    by_cases h1 : (se.truthy && se.typeofObject) = true
    · by_cases ho : (se.get "output").truthy = true
      · simp [h1, hi, ho] at h
      · simp [h1, hi, ho] at h
    · simp [h1, hi] at h

theorem explicitStep_snd_source (se : JsVal)
    (h : (explicitStep se).2.source = some "schema") :
    (se.get "output").truthy = true := by
  by_cases ho : (se.get "output").truthy = true
  · exact ho
  · exfalso
    rw [explicitStep] at h
    by_cases h1 : (se.truthy && se.typeofObject) = true
    · by_cases hi : (se.get "input").truthy = true
      · simp [h1, hi, ho] at h
      · simp [h1, hi, ho] at h
    · simp [h1, ho] at h

theorem docStep_fst_source (doc : Option Inference)
    (s : SideState × SideState) :
    (docStep doc s).1.source = s.1.source ∨
      (docStep doc s).1.source = some "jsdoc" := by
  cases doc with
  | none => left; rfl
  | some d =>
    rw [docStep]
    split_ifs <;> simp_all

theorem docStep_snd_source (doc : Option Inference)
    (s : SideState × SideState) :
    (docStep doc s).2.source = s.2.source ∨
      (docStep doc s).2.source = some "jsdoc" := by
  cases doc with
  | none => left; rfl
  | some d =>
    rw [docStep]
    split_ifs <;> simp_all

theorem sigStep_fst_source (sig : Inference) (s : SideState × SideState) :
    (sigStep sig s).1.source = s.1.source ∨
      (sigStep sig s).1.source = some "signature" := by
  rw [sigStep]
  split_ifs <;> simp_all

theorem sigStep_snd_source (sig : Inference) (s : SideState × SideState) :
    (sigStep sig s).2.source = s.2.source ∨
      (sigStep sig s).2.source = some "signature" := by
  rw [sigStep]
  split_ifs <;> simp_all

theorem getD_eq_schema (o : Option String)
    (h : o.getD "default" = "schema") : o = some "schema" := by
  cases o with
  | none => exact absurd h (by decide)
  | some v => simp_all

/-! ## Claim C8 -/

/-- C8: when the chosen explicit schema export is an object carrying
an `input` (respectively `output`) member that is itself an object
(a schema value), the resolved schema for that side is exactly that
member and its source is marked explicit (the code's `"schema"` tag)
— for every JSDoc inference result `doc` and signature inference
result `sig`, so neither is consulted for that side. -/
theorem C8_explicit_schema_wins (mod : String → JsVal) (name : String)
    (doc : Option Inference) (sig : Inference)
    (hexp : (chosenSchemaExport mod name).isObjLike = true) :
    (((chosenSchemaExport mod name).get "input").isObjLike = true →
      (resolveToolSchemas mod name doc sig).inputSchema =
        (chosenSchemaExport mod name).get "input" ∧
      (resolveToolSchemas mod name doc sig).inputSchemaSource = "schema") ∧
    (((chosenSchemaExport mod name).get "output").isObjLike = true →
      (resolveToolSchemas mod name doc sig).outputSchema =
        (chosenSchemaExport mod name).get "output" ∧
      (resolveToolSchemas mod name doc sig).outputSchemaSource = "schema") := by
  have ht := isObjLike_truthy _ hexp
  have hto := isObjLike_typeofObject _ hexp
  constructor
  · intro hin
    have hint := isObjLike_truthy _ hin
    have e1 := explicitStep_fst_truthy _ ht hto hint
    have e2 := docStep_fst_truthy doc _ (by rw [e1]; exact hint)
    have e3 := sigStep_fst_truthy sig _ (by rw [e2, e1]; exact hint)
    rw [resolveToolSchemas, finalizeSides]
    rw [e3, e2, e1]
    simp [hint]
  · intro hout
    have houtt := isObjLike_truthy _ hout
    have e1 := explicitStep_snd_truthy _ ht hto houtt
    have e2 := docStep_snd_truthy doc _ (by rw [e1]; exact houtt)
    have e3 := sigStep_snd_truthy sig _ (by rw [e2, e1]; exact houtt)
    rw [resolveToolSchemas, finalizeSides]
    rw [e3, e2, e1]
    simp [houtt]

/-- C8, witness at `modExplicit` (explicit `schema` export with both
members) against the inference fixture `inferenceBoth` on both the
doc and signature channels. -/
theorem C8_explicit_schema_wins_witness :
    (resolveToolSchemas modExplicit "convert-text" (some inferenceBoth)
        inferenceBoth).inputSchema =
      (chosenSchemaExport modExplicit "convert-text").get "input" ∧
    (resolveToolSchemas modExplicit "convert-text" (some inferenceBoth)
        inferenceBoth).inputSchemaSource = "schema" ∧
    (resolveToolSchemas modExplicit "convert-text" (some inferenceBoth)
        inferenceBoth).outputSchema =
      (chosenSchemaExport modExplicit "convert-text").get "output" ∧
    (resolveToolSchemas modExplicit "convert-text" (some inferenceBoth)
        inferenceBoth).outputSchemaSource = "schema" := by
  have h := C8_explicit_schema_wins modExplicit "convert-text"
    (some inferenceBoth) inferenceBoth (by decide)
  exact ⟨(h.1 (by decide)).1, (h.1 (by decide)).2,
    (h.2 (by decide)).1, (h.2 (by decide)).2⟩

/-! ## Claim C9 -/

/-- C9: under the tool-module contract (each candidate export is
either absent/`undefined` or a schema object), the explicit schema
export is chosen as the first present among `schema`, `toolSchema`,
`defaultSchema`, `<camelCasedToolName>Schema`, in that order; and a
side's source is marked explicit (`"schema"`) only when that member
exists (is not `undefined`) on the chosen export. -/
theorem C9_export_chain_and_membership (mod : String → JsVal)
    (name : String) (doc : Option Inference) (sig : Inference)
    (h : ∀ k ∈ ["schema", "toolSchema", "defaultSchema",
        camelize name ++ "Schema"],
      mod k = JsVal.undefined ∨ (mod k).isObjLike = true) :
    chosenSchemaExport mod name =
      firstPresent [mod "schema", mod "toolSchema", mod "defaultSchema",
        mod (camelize name ++ "Schema")] ∧
    ((resolveToolSchemas mod name doc sig).inputSchemaSource = "schema" →
      (chosenSchemaExport mod name).get "input" ≠ JsVal.undefined) ∧
    ((resolveToolSchemas mod name doc sig).outputSchemaSource = "schema" →
      (chosenSchemaExport mod name).get "output" ≠ JsVal.undefined) := by
  refine ⟨?_, ?_, ?_⟩
  · have h1 := h "schema" (by simp)
    have h2 := h "toolSchema" (by simp)
    have h3 := h "defaultSchema" (by simp)
    have h4 := h (camelize name ++ "Schema") (by simp)
    rw [chosenSchemaExport]
    rcases h1 with h1 | h1 <;> rcases h2 with h2 | h2 <;>
      rcases h3 with h3 | h3 <;> rcases h4 with h4 | h4 <;>
      simp_all [firstPresent, isUndefined_undefined, jsNullish_undefined,
        jsNullish_objLike, isObjLike_not_undefined]
  · intro hsrc hun
    have hit : ((chosenSchemaExport mod name).get "input").truthy = false := by
      rw [hun]; rfl
    rw [resolveToolSchemas, finalizeSides] at hsrc
    simp only at hsrc
    have hs3 := getD_eq_schema _ hsrc
    have hs2 : (docStep doc
        (explicitStep (chosenSchemaExport mod name))).1.source =
        some "schema" := by
      rcases sigStep_fst_source sig
          (docStep doc (explicitStep (chosenSchemaExport mod name)))
        with h' | h'
      · exact h'.symm.trans hs3
      · exact absurd (h'.symm.trans hs3) (by simp)
    have hs1 : (explicitStep (chosenSchemaExport mod name)).1.source =
        some "schema" := by
      rcases docStep_fst_source doc
          (explicitStep (chosenSchemaExport mod name)) with h' | h'
      · exact h'.symm.trans hs2
      · exact absurd (h'.symm.trans hs2) (by simp)
    have := explicitStep_fst_source _ hs1
    rw [this] at hit
    exact absurd hit (by simp)
  · intro hsrc hun
    have hot : ((chosenSchemaExport mod name).get "output").truthy = false := by
      rw [hun]; rfl
    rw [resolveToolSchemas, finalizeSides] at hsrc
    simp only at hsrc
    have hs3 := getD_eq_schema _ hsrc
    have hs2 : (docStep doc
        (explicitStep (chosenSchemaExport mod name))).2.source =
        some "schema" := by
      rcases sigStep_snd_source sig
          (docStep doc (explicitStep (chosenSchemaExport mod name)))
        with h' | h'
      · exact h'.symm.trans hs3
      · exact absurd (h'.symm.trans hs3) (by simp)
    have hs1 : (explicitStep (chosenSchemaExport mod name)).2.source =
        some "schema" := by
      rcases docStep_snd_source doc
          (explicitStep (chosenSchemaExport mod name)) with h' | h'
      · exact h'.symm.trans hs2
      · exact absurd (h'.symm.trans hs2) (by simp)
    have := explicitStep_snd_source _ hs1
    rw [this] at hot
    exact absurd hot (by simp)

/-- C9, witness at `modToolSchemaOnly` for the tool name
`convert-text`: `toolSchema` is chosen (the first present export) and
the input side resolves as explicit while the output side does not. -/
theorem C9_export_chain_and_membership_witness :
    chosenSchemaExport modToolSchemaOnly "convert-text" =
      firstPresent [modToolSchemaOnly "schema",
        modToolSchemaOnly "toolSchema", modToolSchemaOnly "defaultSchema",
        modToolSchemaOnly (camelize "convert-text" ++ "Schema")] ∧
    (chosenSchemaExport modToolSchemaOnly "convert-text").get "input" ≠
      JsVal.undefined := by
  have h9 := C9_export_chain_and_membership modToolSchemaOnly "convert-text"
    (some inferenceBoth) inferenceBoth (by
      intro k hk
      simp only [List.mem_cons, List.not_mem_nil, or_false] at hk
      rcases hk with rfl | rfl | rfl | rfl
      · exact Or.inl rfl
      · exact Or.inr rfl
      · exact Or.inl rfl
      · exact Or.inl rfl)
  exact ⟨h9.1, h9.2.1 (by decide)⟩

end Dzx
